import Mathlib

/-!
# Verification of the Eliza arbitrage bot's detection-and-validation pipeline

Shallow embedding of the core pipeline of the repository
(`src/index.ts`, enhanced variant): the `ArbitrageDataCollector`
(grouping price data by token, deriving a candidate opportunity from the
cheapest and most expensive quote, profit gates, gas-cost model,
confidence scoring) and the `EmergencyAnomalyFilter` (ordered validation
checks, 0-100 scoring, accept/caution/reject recommendation, filtering
and ranking of the published opportunity list).

Modelling conventions:
* JS numbers are modelled as `ℚ` (the pipeline only adds, subtracts,
  multiplies, divides and compares; all constants are exact decimals).
  `NaN`/`Infinity` never arise for the inputs quantified over here, so
  the `isFinite`/`isNaN` guards of `isValidNumber` are vacuous in the
  model.
* JS strings are Lean `String`s; `toLowerCase`/`toUpperCase` are mapped
  to per-character ASCII case conversion (`Char.toLower`/`Char.toUpper`),
  `String.prototype.includes` to a substring test on the character list,
  and `pair.split('/')[0]` to the characters before the first `'/'`.
* `Array.prototype.sort` (stable since ES2019) is modelled by the stable
  `List.insertionSort`.
* `Date.now()` is threaded through as an explicit `now : ℕ` parameter.
* The environment-derived `config` object is a `Config` structure; the
  fields the pipeline reads are `MIN_PROFIT_THRESHOLD`, `TRADE_AMOUNT`,
  `EMERGENCY_FILTER_ENABLED` and `MAX_PROFIT_RATE`, with the defaults
  from the source.
-/

namespace ArbBot

/-! ## String helpers (models of the JS string operations used) -/

/-- Model of `String.prototype.toLowerCase` restricted to ASCII,
charwise `Char.toLower` over the string's characters. -/
def strLower (s : String) : String := ⟨s.data.map Char.toLower⟩

/-- Model of `String.prototype.toUpperCase` restricted to ASCII,
charwise `Char.toUpper` over the string's characters. -/
def strUpper (s : String) : String := ⟨s.data.map Char.toUpper⟩

/-- Does the pattern occur at the head of the list? -/
def leadMatch : List Char → List Char → Bool
  | [], _ => true
  | _ :: _, [] => false
  | c :: cs, d :: ds => c == d && leadMatch cs ds

/-- Does the pattern occur anywhere in the list? -/
def occursIn (pat : List Char) : List Char → Bool
  | [] => leadMatch pat []
  | d :: ds => leadMatch pat (d :: ds) || occursIn pat ds

/-- Model of `s.includes(sub)` (substring containment). -/
def strIncludes (s sub : String) : Bool := occursIn sub.data s.data

/-- Model of `pair.split('/')[0]`: the characters before the first `'/'`
(the whole string when there is no `'/'`). -/
def baseAsset (pair : String) : String := ⟨pair.data.takeWhile (fun c => c != '/')⟩

/-! ## Data model (the TypeScript interfaces) -/

/-- Model of `interface PriceData`. -/
structure PriceData where
  exchange : String
  pair : String
  price : ℚ
  volume : ℚ
  timestamp : ℕ
deriving DecidableEq

/-- The three-tier confidence label `'low' | 'medium' | 'high'`. -/
inductive Confidence where
  | low
  | medium
  | high
deriving DecidableEq

/-- Model of `interface ArbitrageOpportunity`. -/
structure ArbitrageOpportunity where
  token : String
  buyExchange : String
  sellExchange : String
  buyPrice : ℚ
  sellPrice : ℚ
  priceDifference : ℚ
  potentialProfit : ℚ
  estimatedGasCost : ℚ
  netProfit : ℚ
  profitPercentage : ℚ
  confidence : Confidence
  timestamp : ℕ
deriving DecidableEq

/-- The recommendation enum `'ACCEPT' | 'CAUTION' | 'REJECT'`. -/
inductive Recommendation where
  | ACCEPT
  | CAUTION
  | REJECT
deriving DecidableEq

/-- Model of `interface ValidationResult`. -/
structure ValidationResult where
  isValid : Bool
  reason : String
  score : ℚ
  recommendation : Recommendation
deriving DecidableEq

/-- The `{ valid, reason }` records returned by the individual checks. -/
structure CheckResult where
  valid : Bool
  reason : String
deriving DecidableEq

/-- The fields of the environment-derived `config` object that the
detection/validation pipeline reads. -/
structure Config where
  MIN_PROFIT_THRESHOLD : ℚ
  TRADE_AMOUNT : ℚ
  EMERGENCY_FILTER_ENABLED : Bool
  MAX_PROFIT_RATE : ℚ
deriving DecidableEq

/-- The defaults from the source: `MIN_PROFIT_THRESHOLD = 0.5`,
`TRADE_AMOUNT = 1000`, `EMERGENCY_FILTER_ENABLED` is false unless the
env var is the literal `'true'`, `MAX_PROFIT_RATE = 50`. -/
def defaultConfig : Config :=
  { MIN_PROFIT_THRESHOLD := 0.5
    TRADE_AMOUNT := 1000
    EMERGENCY_FILTER_ENABLED := false
    MAX_PROFIT_RATE := 50 }

/-! ## `EnhancedPriceRanges` -/

/-- One entry of `EXTENDED_PRICE_RANGES`: `{ min, max, type }`. -/
structure PriceRange where
  min : ℚ
  max : ℚ
  type : String
deriving DecidableEq

/-- Table `EnhancedPriceRanges.EXTENDED_PRICE_RANGES`, keyed by upper-case
token symbol. -/
def EXTENDED_PRICE_RANGES : List (String × PriceRange) :=
  [("DAI", ⟨0.90, 1.10, "stablecoin"⟩),
   ("USDC", ⟨0.90, 1.10, "stablecoin"⟩),
   ("USDT", ⟨0.90, 1.10, "stablecoin"⟩),
   ("WBTC", ⟨40000, 200000, "bitcoin-pegged"⟩),
   ("ETH", ⟨1500, 15000, "major-crypto"⟩),
   ("ETHEREUM", ⟨1500, 15000, "major-crypto"⟩),
   ("BITCOIN", ⟨40000, 200000, "bitcoin-pegged"⟩),
   ("LINK", ⟨5, 100, "defi"⟩),
   ("CHAINLINK", ⟨5, 100, "defi"⟩),
   ("UNI", ⟨3, 50, "defi"⟩),
   ("UNISWAP", ⟨3, 50, "defi"⟩),
   ("AAVE", ⟨50, 1000, "defi"⟩),
   ("MATIC", ⟨0.3, 10, "layer2"⟩),
   ("POLYGON", ⟨0.3, 10, "layer2"⟩),
   ("SOL", ⟨10, 500, "layer1"⟩),
   ("SOLANA", ⟨10, 500, "layer1"⟩),
   ("ADA", ⟨0.1, 5, "layer1"⟩),
   ("CARDANO", ⟨0.1, 5, "layer1"⟩),
   ("AVAX", ⟨8, 200, "layer1"⟩),
   ("AVALANCHE", ⟨8, 200, "layer1"⟩),
   ("COMP", ⟨30, 800, "defi"⟩),
   ("MKR", ⟨500, 5000, "defi"⟩),
   ("MAKER", ⟨500, 5000, "defi"⟩),
   ("GRT", ⟨0.05, 3, "infrastructure"⟩),
   ("SNX", ⟨1, 50, "defi"⟩),
   ("CRV", ⟨0.2, 10, "defi"⟩),
   ("SUSHI", ⟨0.3, 15, "defi"⟩),
   ("CAKE", ⟨1, 30, "defi"⟩),
   ("ARB", ⟨0.5, 20, "layer2"⟩),
   ("OP", ⟨1, 50, "layer2"⟩)]

/-- Model of `EnhancedPriceRanges.getPriceRange`: case-insensitive lookup,
`null` when the token is not in the table. -/
def getPriceRange (token : String) : Option PriceRange :=
  EXTENDED_PRICE_RANGES.lookup (strUpper token)

/-- Model of `EnhancedPriceRanges.isValidPrice`: inside the `[min, max]` band;
trivially true for an unclassified token. -/
def isValidPrice (token : String) (price : ℚ) : Bool :=
  match getPriceRange token with
  | none => true
  | some range => decide (range.min ≤ price) && decide (price ≤ range.max)

/-! ## `EmergencyAnomalyFilter` -/

/-- The `UNRELIABLE_SOURCES` blacklist (matched as substrings of the
lower-cased exchange name). -/
def UNRELIABLE_SOURCES : List String :=
  ["pulsex", "pulseX", "powswap", "unknown_dex", "unknown"]

/-- Model of `isValidNumber`: positive (the `NaN`/`isFinite` guards are vacuous
over `ℚ`). -/
def isValidNumber (value : ℚ) : Bool := decide (0 < value)

/-- Model of `isStablecoin`: upper-cased symbol among the five stablecoins. -/
def isStablecoin (token : String) : Bool :=
  ["DAI", "USDC", "USDT", "BUSD", "FRAX"].contains (strUpper token)

/-- Model of `validatePriceRange`: both prices inside the asset class band;
unknown tokens skip the check. -/
def validatePriceRange (token : String) (buyPrice sellPrice : ℚ) : CheckResult :=
  match getPriceRange token with
  | none => ⟨true, "Unknown token, skipping range check"⟩
  | some range =>
    if !(isValidPrice token buyPrice) then
      ⟨false, "Buy price $" ++ toString buyPrice ++ " outside range $" ++
        toString range.min ++ "-$" ++ toString range.max ++ " for " ++ range.type⟩
    else if !(isValidPrice token sellPrice) then
      ⟨false, "Sell price $" ++ toString sellPrice ++ " outside range $" ++
        toString range.min ++ "-$" ++ toString range.max ++ " for " ++ range.type⟩
    else ⟨true, "Price range valid for " ++ range.type⟩

/-- The token-type-specific profit-rate ceilings of `validateProfitRate`
(`maxProfitRates[range.type] || this.MAX_PROFIT_RATE`; every table value
is nonzero, so the JS `||` is a plain lookup-with-default). -/
def maxProfitRates (type : String) (dflt : ℚ) : ℚ :=
  if type = "stablecoin" then 5
  else if type = "major-crypto" then 25
  else if type = "bitcoin-pegged" then 25
  else if type = "defi" then 50
  else if type = "layer1" then 100
  else if type = "layer2" then 100
  else if type = "infrastructure" then 150
  else if type = "altcoin" then 200
  else dflt

/-- Model of `validateProfitRate`: the profit percentage must not exceed the
class-specific ceiling. -/
def validateProfitRate (cfg : Config) (opportunity : ArbitrageOpportunity) : CheckResult :=
  let range := getPriceRange opportunity.token
  let maxRate := match range with
    | some r => maxProfitRates r.type cfg.MAX_PROFIT_RATE
    | none => cfg.MAX_PROFIT_RATE
  if opportunity.profitPercentage > maxRate then
    ⟨false, toString opportunity.profitPercentage ++ "% exceeds max for " ++
      (match range with | some r => r.type | none => "unknown") ++
      " (" ++ toString maxRate ++ "%)"⟩
  else ⟨true, "Profit rate acceptable"⟩

/-- Model of `validateSources`: neither lower-cased exchange may contain a
blacklisted substring, and the two lower-cased names must differ. -/
def validateSources (buyExchange sellExchange : String) : CheckResult :=
  let normalizedBuySource := strLower buyExchange
  let normalizedSellSource := strLower sellExchange
  if UNRELIABLE_SOURCES.any (fun source => strIncludes normalizedBuySource source) then
    ⟨false, "Unreliable buy source: " ++ buyExchange⟩
  else if UNRELIABLE_SOURCES.any (fun source => strIncludes normalizedSellSource source) then
    ⟨false, "Unreliable sell source: " ++ sellExchange⟩
  else if normalizedBuySource = normalizedSellSource then
    ⟨false, "Same source for buy and sell"⟩
  else ⟨true, "Sources OK"⟩

/-- Model of `validateStablecoin`: both prices within 5% relative deviation of
the expected peg 1.0. -/
def validateStablecoin (opportunity : ArbitrageOpportunity) : CheckResult :=
  let token := strUpper opportunity.token
  if !(isStablecoin token) then ⟨true, "Not a stablecoin"⟩
  else
    let expectedPrice : ℚ := 1.0
    let maxDeviation : ℚ := 0.05
    let buyDeviation := |opportunity.buyPrice - expectedPrice| / expectedPrice
    let sellDeviation := |opportunity.sellPrice - expectedPrice| / expectedPrice
    if buyDeviation > maxDeviation then
      ⟨false, "Buy price deviation " ++ toString (buyDeviation * 100) ++
        "% exceeds " ++ toString (maxDeviation * 100) ++ "%"⟩
    else if sellDeviation > maxDeviation then
      ⟨false, "Sell price deviation " ++ toString (sellDeviation * 100) ++
        "% exceeds " ++ toString (maxDeviation * 100) ++ "%"⟩
    else ⟨true, "Stablecoin prices within acceptable range"⟩

/-- The `getSourceReliability` lookup table. The JS expression is
`reliability[source.toLowerCase()] || 5`, so the `0` entries for
`pulsex`/`powswap` are falsy and fall through to the default 5; the
model reproduces that. -/
def getSourceReliability (source : String) : ℚ :=
  let reliability : List (String × ℚ) :=
    [("coingecko", 15), ("coingecko_average", 15), ("binance", 12),
     ("coinbase", 12), ("uniswap", 10), ("uniswap_v3", 10),
     ("sushiswap", 8), ("curve", 8), ("pancakeswap", 6), ("quickswap", 5),
     ("pulsex", 0), ("powswap", 0)]
  match reliability.lookup (strLower source) with
  | some v => if v = 0 then 5 else v
  | none => 5

/-- The per-class score bonus of `calculateScore`
(`typeBonus[tokenType] || 0`). -/
def typeBonus (tokenType : String) : ℚ :=
  if tokenType = "stablecoin" then 20
  else if tokenType = "major-crypto" then 15
  else if tokenType = "bitcoin-pegged" then 15
  else if tokenType = "defi" then 10
  else if tokenType = "layer1" then 8
  else if tokenType = "layer2" then 8
  else if tokenType = "infrastructure" then 5
  else 0

/-- Model of `calculateScore`: profit sweet-spot points + source reliability of
both sides + per-class bonus, clamped to `[0, 100]`. -/
def calculateScore (opportunity : ArbitrageOpportunity) : ℚ :=
  let range := getPriceRange opportunity.token
  let tokenType := match range with | some r => r.type | none => "unknown"
  let p := opportunity.profitPercentage
  let profitPoints : ℚ :=
    if tokenType = "stablecoin" then
      if 0.5 ≤ p ∧ p ≤ 2 then 40 else if p ≤ 5 then 20 else 0
    else if tokenType = "major-crypto" ∨ tokenType = "bitcoin-pegged" then
      if 1 ≤ p ∧ p ≤ 10 then 40 else if p ≤ 25 then 20 else 0
    else
      if 2 ≤ p ∧ p ≤ 15 then 40 else if p ≤ 50 then 20 else 0
  let sourceReliability :=
    getSourceReliability opportunity.buyExchange +
      getSourceReliability opportunity.sellExchange
  let score := profitPoints + sourceReliability + typeBonus tokenType
  max 0 (min 100 score)

/-- The scoring tail of `validateOpportunity` (lines reached only when
every check has passed): score `≥ 70` accepts, `[40, 70)` cautions,
`< 40` rejects. -/
def scoreOutcome (opportunity : ArbitrageOpportunity) : ValidationResult :=
  let score := calculateScore opportunity
  if score ≥ 70 then
    ⟨true, "Passed all validation checks", score, .ACCEPT⟩
  else if score ≥ 40 then
    ⟨false, "Moderate confidence, requires manual review", score, .CAUTION⟩
  else
    ⟨false, "Low confidence score", score, .REJECT⟩

/-- Model of `EmergencyAnomalyFilter.validateOpportunity`: the five checks in
source order with early return, then the scoring tail. -/
def validateOpportunity (cfg : Config) (opportunity : ArbitrageOpportunity) : ValidationResult :=
  if !(isValidNumber opportunity.buyPrice) || !(isValidNumber opportunity.sellPrice) then
    ⟨false, "Invalid price data", 0, .REJECT⟩
  else
    let priceValidation :=
      validatePriceRange opportunity.token opportunity.buyPrice opportunity.sellPrice
    if !priceValidation.valid then
      ⟨false, "Price out of range: " ++ priceValidation.reason, 0, .REJECT⟩
    else
      let profitValidation := validateProfitRate cfg opportunity
      if !profitValidation.valid then
        ⟨false, "Invalid profit rate: " ++ profitValidation.reason, 0, .REJECT⟩
      else
        let sourceValidation :=
          validateSources opportunity.buyExchange opportunity.sellExchange
        if !sourceValidation.valid then
          ⟨false, "Unreliable source: " ++ sourceValidation.reason, 0, .REJECT⟩
        else
          if isStablecoin opportunity.token then
            let stableValidation := validateStablecoin opportunity
            if !stableValidation.valid then
              ⟨false, "Stablecoin anomaly: " ++ stableValidation.reason, 0, .REJECT⟩
            else scoreOutcome opportunity
          else scoreOutcome opportunity

/-- Model of `mapScoreToConfidence`. -/
def mapScoreToConfidence (score : ℚ) : Confidence :=
  if score ≥ 70 then .high else if score ≥ 40 then .medium else .low

/-- The accepted copy of an opportunity: all fields kept, confidence
replaced by the score-mapped confidence. -/
def acceptedCopy (cfg : Config) (opportunity : ArbitrageOpportunity) : ArbitrageOpportunity :=
  { opportunity with
    confidence := mapScoreToConfidence (validateOpportunity cfg opportunity).score }

/-- The descending `netProfit` comparator of the two
`sort((a, b) => b.netProfit - a.netProfit)` calls. -/
def netProfitDesc (a b : ArbitrageOpportunity) : Prop := b.netProfit ≤ a.netProfit

instance : DecidableRel netProfitDesc :=
  fun a b => inferInstanceAs (Decidable (b.netProfit ≤ a.netProfit))

instance : IsTotal ArbitrageOpportunity netProfitDesc :=
  ⟨fun a b => (le_total b.netProfit a.netProfit).imp id id⟩

instance : IsTrans ArbitrageOpportunity netProfitDesc :=
  ⟨fun _ _ _ h1 h2 => le_trans h2 h1⟩

/-- Stable sort by `netProfit` descending (ES2019 `Array.sort` is
stable, so the stable `insertionSort` models it). -/
def sortByNetProfitDesc (l : List ArbitrageOpportunity) : List ArbitrageOpportunity :=
  List.insertionSort netProfitDesc l

/-- The `for (const opportunity of opportunities)` loop of
`filterOpportunities`, building the accepted and rejected lists in input
order. -/
def filterLoop (cfg : Config) : List ArbitrageOpportunity →
    List ArbitrageOpportunity × List ArbitrageOpportunity
  | [] => ([], [])
  | opportunity :: rest =>
    let validation := validateOpportunity cfg opportunity
    let r := filterLoop cfg rest
    if validation.isValid then (acceptedCopy cfg opportunity :: r.1, r.2)
    else (r.1, opportunity :: r.2)

/-- The record returned by `filterOpportunities` (the
`filterEfficiency` display string of the summary is not modelled). -/
structure FilterResult where
  accepted : List ArbitrageOpportunity
  rejected : List ArbitrageOpportunity
  total : ℕ
  acceptedCount : ℕ
  rejectedCount : ℕ
deriving DecidableEq

/-- Model of `EmergencyAnomalyFilter.filterOpportunities`: validate each
candidate, keep accepted ones with remapped confidence, sort the
accepted list by `netProfit` descending. -/
def filterOpportunities (cfg : Config) (opportunities : List ArbitrageOpportunity) : FilterResult :=
  let r := filterLoop cfg opportunities
  { accepted := sortByNetProfitDesc r.1
    rejected := r.2
    total := opportunities.length
    acceptedCount := r.1.length
    rejectedCount := r.2.length }

/-! ## `ArbitrageDataCollector` -/

/-- The ascending price comparator of `prices.sort((a, b) => a.price - b.price)`. -/
def priceAsc (a b : PriceData) : Prop := a.price ≤ b.price

instance : DecidableRel priceAsc :=
  fun a b => inferInstanceAs (Decidable (a.price ≤ b.price))

instance : IsTotal PriceData priceAsc := ⟨fun a b => le_total a.price b.price⟩

instance : IsTrans PriceData priceAsc := ⟨fun _ _ _ h1 h2 => le_trans h1 h2⟩

/-- Stable sort of a token group by price ascending. -/
def sortByPriceAsc (prices : List PriceData) : List PriceData :=
  List.insertionSort priceAsc prices

/-- The grouping key: `data.pair.split('/')[0].toLowerCase()`. -/
def groupKey (d : PriceData) : String := strLower (baseAsset d.pair)

/-- One step of the grouping loop: append the quote to its token's
group, creating the group on first occurrence (JS object iteration
order over string keys is insertion order, which the list preserves). -/
def addToGroups (groups : List (String × List PriceData)) (d : PriceData) :
    List (String × List PriceData) :=
  let token := groupKey d
  if groups.any (fun g => g.1 == token) then
    groups.map (fun g => if g.1 == token then (g.1, g.2 ++ [d]) else g)
  else groups ++ [(token, [d])]

/-- The `tokenGroups` object of `analyzeArbitrageOpportunities`. -/
def groupByToken (priceData : List PriceData) : List (String × List PriceData) :=
  priceData.foldl addToGroups []

/-- Model of `getMinProfitThreshold`: class-specific minimum gross profit
percentage; unclassified tokens use `config.MIN_PROFIT_THRESHOLD`. -/
def getMinProfitThreshold (cfg : Config) (token : String) : ℚ :=
  match getPriceRange token with
  | none => cfg.MIN_PROFIT_THRESHOLD
  | some range =>
    if range.type = "stablecoin" then 0.1
    else if range.type = "major-crypto" then 0.5
    else if range.type = "bitcoin-pegged" then 0.5
    else if range.type = "defi" then 1.0
    else if range.type = "layer1" then 2.0
    else if range.type = "layer2" then 2.0
    else if range.type = "infrastructure" then 3.0
    else if range.type = "altcoin" then 5.0
    else cfg.MIN_PROFIT_THRESHOLD

/-- Model of `estimateGasCost`: `(30 Gwei * 300000 gas * $2500) / 1e9 = $22.5`. -/
def estimateGasCost : ℚ := 30 * 300000 * 2500 / 1000000000

/-- The reputable-venue allow-list of `calculateConfidence`. -/
def reputableExchanges : List String :=
  ["uniswap", "sushiswap", "pancakeswap", "coingecko_average", "curve"]

/-- Model of `calculateConfidence`: additive points from profit magnitude, both
sides' 24h volume, and the reputable-venue list. -/
def calculateConfidence (cheapest mostExpensive : PriceData)
    (profitPercentage : ℚ) : Confidence :=
  let profitPoints : ℕ :=
    if profitPercentage > 5 then 3
    else if profitPercentage > 2 then 2
    else if profitPercentage > 1 then 1
    else 0
  let volumePoints : ℕ :=
    if cheapest.volume > 100000 ∧ mostExpensive.volume > 100000 then 2
    else if cheapest.volume > 10000 ∧ mostExpensive.volume > 10000 then 1
    else 0
  let reputablePoints : ℕ :=
    if reputableExchanges.any (fun ex => strIncludes cheapest.exchange ex) &&
        reputableExchanges.any (fun ex => strIncludes mostExpensive.exchange ex) then 1
    else 0
  let score := profitPoints + volumePoints + reputablePoints
  if score ≥ 5 then .high else if score ≥ 3 then .medium else .low

/-- Placeholder quote for the (unreachable) empty-list accesses
`sortedPrices[0]` / `sortedPrices[length - 1]`. -/
def emptyPriceData : PriceData := ⟨"", "", 0, 0, 0⟩

/-- The body of the per-token-group loop of
`analyzeArbitrageOpportunities`: `none` models `continue` / no push. -/
def analyzeGroup (cfg : Config) (now : ℕ) (token : String)
    (prices : List PriceData) : Option ArbitrageOpportunity :=
  if prices.length < 2 then none
  else
    let sortedPrices := sortByPriceAsc prices
    let cheapest := sortedPrices.headD emptyPriceData
    let mostExpensive := sortedPrices.getLastD emptyPriceData
    if cheapest.exchange = mostExpensive.exchange then none
    else
      let priceDifference := mostExpensive.price - cheapest.price
      let profitPercentage := priceDifference / cheapest.price * 100
      let minThreshold := getMinProfitThreshold cfg token
      if profitPercentage ≥ minThreshold then
        let estimatedGasCost := estimateGasCost
        let potentialProfit := cfg.TRADE_AMOUNT * profitPercentage / 100
        let netProfit := potentialProfit - estimatedGasCost
        if netProfit > 0 then
          some { token := strUpper token
                 buyExchange := cheapest.exchange
                 sellExchange := mostExpensive.exchange
                 buyPrice := cheapest.price
                 sellPrice := mostExpensive.price
                 priceDifference := priceDifference
                 potentialProfit := potentialProfit
                 estimatedGasCost := estimatedGasCost
                 netProfit := netProfit
                 profitPercentage := profitPercentage
                 confidence := calculateConfidence cheapest mostExpensive profitPercentage
                 timestamp := now }
        else none
      else none

/-- The detection stage: the candidate list accumulated by the group
loop, in group-insertion order. -/
def detectOpportunities (cfg : Config) (now : ℕ)
    (priceData : List PriceData) : List ArbitrageOpportunity :=
  (groupByToken priceData).filterMap (fun g => analyzeGroup cfg now g.1 g.2)

/-- Model of `ArbitrageDataCollector.analyzeArbitrageOpportunities`: detection,
then either the enhanced filter's accepted list (when
`EMERGENCY_FILTER_ENABLED`) or the candidates sorted by `netProfit`
descending. -/
def analyzeArbitrageOpportunities (cfg : Config) (now : ℕ)
    (priceData : List PriceData) : List ArbitrageOpportunity :=
  let opportunities := detectOpportunities cfg now priceData
  if cfg.EMERGENCY_FILTER_ENABLED then
    (filterOpportunities cfg opportunities).accepted
  else
    sortByNetProfitDesc opportunities

/-! ## Reference definition taken from the specification text

The spec's claim about the detection-stage minimum-profit gate states
its per-class thresholds; in particular it asserts that unclassified
("illiquid/unclassified altcoin") assets require the largest edge, 5%.
This definition transcribes that claimed threshold so that it can be
compared with the source's `getMinProfitThreshold`. -/

/-- The minimum gross-profit threshold as the specification's sentence
describes it: the class-specific values, with unclassified altcoins at
the claimed largest edge of 5%. -/
def specMinProfitThreshold (token : String) : ℚ :=
  match getPriceRange token with
  | some range =>
    if range.type = "stablecoin" then 0.1
    else if range.type = "major-crypto" then 0.5
    else if range.type = "bitcoin-pegged" then 0.5
    else if range.type = "defi" then 1.0
    else if range.type = "layer1" then 2.0
    else if range.type = "layer2" then 2.0
    else if range.type = "infrastructure" then 3.0
    else 5.0
  | none => 5.0

/-- The conjunction "every check before the scoring stage passes":
numeric sanity of both prices, price band, profit-rate ceiling, source
reliability, and (for stablecoins) peg deviation. A candidate reaches
the scoring stage of `validateOpportunity` exactly when this holds. -/
def passesChecks (cfg : Config) (opp : ArbitrageOpportunity) : Prop :=
  isValidNumber opp.buyPrice = true ∧ isValidNumber opp.sellPrice = true ∧
    (validatePriceRange opp.token opp.buyPrice opp.sellPrice).valid = true ∧
    (validateProfitRate cfg opp).valid = true ∧
    (validateSources opp.buyExchange opp.sellExchange).valid = true ∧
    (isStablecoin opp.token = true → (validateStablecoin opp).valid = true)

/-- The checks before the stablecoin stage (used to state what "reaches
the stablecoin check" means). -/
def reachesStablecoinCheck (cfg : Config) (opp : ArbitrageOpportunity) : Prop :=
  isValidNumber opp.buyPrice = true ∧ isValidNumber opp.sellPrice = true ∧
    (validatePriceRange opp.token opp.buyPrice opp.sellPrice).valid = true ∧
    (validateProfitRate cfg opp).valid = true ∧
    (validateSources opp.buyExchange opp.sellExchange).valid = true

/-! ## Concrete inputs used by witnesses and counterexamples -/

/-- An unclassified-token (`PEPE`) quote at `$100` on binance. -/
def pC3a : PriceData := ⟨"binance", "PEPE/USD", 100, 50000, 0⟩

/-- An unclassified-token (`PEPE`) quote at `$103` on coinbase. -/
def pC3b : PriceData := ⟨"coinbase", "PEPE/USD", 103, 50000, 0⟩

/-- Two quotes for an unclassified token (`PEPE`) with a 3% spread. -/
def pdC3 : List PriceData := [pC3a, pC3b]

/-- The opportunity the detector derives from `pdC3` under the default
configuration: 3% gross profit, net profit `30 - 22.5 = 7.5`. -/
def oppC3 : ArbitrageOpportunity :=
  { token := "PEPE", buyExchange := "binance", sellExchange := "coinbase"
    buyPrice := 100, sellPrice := 103, priceDifference := 3
    potentialProfit := 30, estimatedGasCost := 22.5, netProfit := 7.5
    profitPercentage := 3, confidence := .medium, timestamp := 0 }

/-- The ETH quote at `$3000` on VenueA of the spec's §8 scenario. -/
def pC9a : PriceData := ⟨"VenueA", "ETH/USD", 3000, 200000, 0⟩

/-- The ETH quote at `$3060` on VenueB of the spec's §8 scenario. -/
def pC9b : PriceData := ⟨"VenueB", "ETH/USD", 3060, 200000, 0⟩

/-- The spec's §8 scenario input: ETH at `$3000` on VenueA and `$3060`
on VenueB, 24h volume `200000` on both sides. -/
def pdC9 : List PriceData := [pC9a, pC9b]

/-- The default configuration with the filter enabled and the trade
amount raised to `10000`, large enough that the `pdC9` candidate's net
profit is positive. -/
def cfgC9 : Config :=
  { defaultConfig with TRADE_AMOUNT := 10000, EMERGENCY_FILTER_ENABLED := true }

/-- The candidate the detector derives from `pdC9` when the trade
amount is `10000`: 2% gross profit, net profit `200 - 22.5 = 177.5`. -/
def oppC9 : ArbitrageOpportunity :=
  { token := "ETH", buyExchange := "VenueA", sellExchange := "VenueB"
    buyPrice := 3000, sellPrice := 3060, priceDifference := 60
    potentialProfit := 200, estimatedGasCost := 22.5, netProfit := 177.5
    profitPercentage := 2, confidence := .medium, timestamp := 0 }

/-- An ETH quote at `$3000` on binance (reputable-venue scenario). -/
def pC5a : PriceData := ⟨"binance", "ETH/USD", 3000, 200000, 0⟩

/-- An ETH quote at `$3060` on coinbase (reputable-venue scenario). -/
def pC5b : PriceData := ⟨"coinbase", "ETH/USD", 3060, 200000, 0⟩

/-- A scenario whose candidate the anomaly filter accepts: ETH on two
reputable venues with a 2% spread. -/
def pdC5 : List PriceData := [pC5a, pC5b]

/-- The candidate the detector derives from `pdC5` with trade amount
`10000`; the filter scores it `40 + 12 + 12 + 15 = 79` and accepts. -/
def oppC5 : ArbitrageOpportunity :=
  { token := "ETH", buyExchange := "binance", sellExchange := "coinbase"
    buyPrice := 3000, sellPrice := 3060, priceDifference := 60
    potentialProfit := 200, estimatedGasCost := 22.5, netProfit := 177.5
    profitPercentage := 2, confidence := .medium, timestamp := 0 }

/-- Two ETH quotes from the same venue (used to exercise the
same-exchange guard of the detector). -/
def pdC1 : List PriceData :=
  [⟨"uniswap", "ETH/USD", 3000, 0, 0⟩, ⟨"uniswap", "ETH/USD", 3060, 0, 0⟩]

/-- A candidate with a non-positive buy price (fails the numeric-sanity
check of the anomaly filter). -/
def oppBadPrice : ArbitrageOpportunity :=
  { token := "ETH", buyExchange := "binance", sellExchange := "coinbase"
    buyPrice := 0, sellPrice := 3060, priceDifference := 3060
    potentialProfit := 0, estimatedGasCost := 22.5, netProfit := 1
    profitPercentage := 1, confidence := .low, timestamp := 0 }

/-- A USDC candidate whose prices sit inside the `[0.90, 1.10]` band
and below the 5% stablecoin profit ceiling, but whose sell price
deviates 8% from the peg: it reaches the stablecoin check and fails it. -/
def oppStableDev : ArbitrageOpportunity :=
  { token := "USDC", buyExchange := "binance", sellExchange := "coinbase"
    buyPrice := 1.04, sellPrice := 1.08, priceDifference := 0.04
    potentialProfit := 0, estimatedGasCost := 22.5, netProfit := 1
    profitPercentage := 100/26, confidence := .low, timestamp := 0 }

/-- A USDC candidate within peg tolerance on both sides (reaches and
passes the stablecoin check, proceeding to scoring). -/
def oppStableOk : ArbitrageOpportunity :=
  { token := "USDC", buyExchange := "binance", sellExchange := "coinbase"
    buyPrice := 0.99, sellPrice := 1.00, priceDifference := 0.01
    potentialProfit := 0, estimatedGasCost := 22.5, netProfit := 1
    profitPercentage := 100/99, confidence := .low, timestamp := 0 }

/-! ## Character and string case-conversion lemmas -/

theorem char_toNat_ofNat {n : ℕ} (h : n < 55296) : (Char.ofNat n).toNat = n := by
  rw [Char.ofNat, dif_pos (Or.inl h)]
  rfl

theorem toNat_toUpper (c : Char) :
    c.toUpper.toNat = if 97 ≤ c.toNat ∧ c.toNat ≤ 122 then c.toNat - 32 else c.toNat := by
  show (if c.toNat ≥ 97 ∧ c.toNat ≤ 122 then Char.ofNat (c.toNat - 32) else c).toNat = _
  split
  case isTrue h => exact char_toNat_ofNat (by omega)
  case isFalse h => rfl

theorem toNat_toLower (c : Char) :
    c.toLower.toNat = if 65 ≤ c.toNat ∧ c.toNat ≤ 90 then c.toNat + 32 else c.toNat := by
  show (if c.toNat ≥ 65 ∧ c.toNat ≤ 90 then Char.ofNat (c.toNat + 32) else c).toNat = _
  split
  case isTrue h => exact char_toNat_ofNat (by omega)
  case isFalse h => rfl

theorem toUpper_toUpper (c : Char) : c.toUpper.toUpper = c.toUpper := by
  have h : ¬(c.toUpper.toNat ≥ 97 ∧ c.toUpper.toNat ≤ 122) := by
    rw [toNat_toUpper]
    split <;> omega
  show (if c.toUpper.toNat ≥ 97 ∧ c.toUpper.toNat ≤ 122 then
      Char.ofNat (c.toUpper.toNat - 32) else c.toUpper) = c.toUpper
  rw [if_neg h]

theorem toLower_toUpper_toLower (c : Char) : c.toLower.toUpper.toLower = c.toLower := by
  by_cases h : 97 ≤ c.toLower.toNat ∧ c.toLower.toNat ≤ 122
  · have h1 : c.toLower.toUpper = Char.ofNat (c.toLower.toNat - 32) := by
      show (if c.toLower.toNat ≥ 97 ∧ c.toLower.toNat ≤ 122 then
          Char.ofNat (c.toLower.toNat - 32) else c.toLower) = _
      rw [if_pos h]
    have h2 : (Char.ofNat (c.toLower.toNat - 32)).toNat = c.toLower.toNat - 32 :=
      char_toNat_ofNat (by omega)
    rw [h1]
    show (if (Char.ofNat (c.toLower.toNat - 32)).toNat ≥ 65 ∧
        (Char.ofNat (c.toLower.toNat - 32)).toNat ≤ 90 then
        Char.ofNat ((Char.ofNat (c.toLower.toNat - 32)).toNat + 32)
      else Char.ofNat (c.toLower.toNat - 32)) = c.toLower
    rw [if_pos (by omega), h2]
    have h3 : c.toLower.toNat - 32 + 32 = c.toLower.toNat := by omega
    rw [h3, Char.ofNat_toNat]
  · have h1 : c.toLower.toUpper = c.toLower := by
      show (if c.toLower.toNat ≥ 97 ∧ c.toLower.toNat ≤ 122 then
          Char.ofNat (c.toLower.toNat - 32) else c.toLower) = _
      rw [if_neg h]
    have h4 : ¬(65 ≤ c.toLower.toNat ∧ c.toLower.toNat ≤ 90) := by
      rw [toNat_toLower]
      split <;> omega
    rw [h1]
    show (if c.toLower.toNat ≥ 65 ∧ c.toLower.toNat ≤ 90 then
        Char.ofNat (c.toLower.toNat + 32) else c.toLower) = c.toLower
    rw [if_neg h4]

theorem strUpper_strUpper (s : String) : strUpper (strUpper s) = strUpper s := by
  simp only [strUpper, List.map_map]
  congr 1
  exact List.map_congr_left (fun c _ => toUpper_toUpper c)

theorem strLower_strUpper_strLower (s : String) :
    strLower (strUpper (strLower s)) = strLower s := by
  simp only [strLower, strUpper, List.map_map]
  congr 1
  exact List.map_congr_left (fun c _ => toLower_toUpper_toLower c)

theorem strUpper_lower_inj {s t : String}
    (h : strUpper (strLower s) = strUpper (strLower t)) : strLower s = strLower t := by
  have := congrArg strLower h
  rwa [strLower_strUpper_strLower, strLower_strUpper_strLower] at this

/-! ## List helper lemmas -/

theorem headD_mem {α : Type} : ∀ (l : List α) (d : α), l ≠ [] → l.headD d ∈ l
  | [], _, h => absurd rfl h
  | _ :: _, _, _ => by simp

theorem getLastD_mem {α : Type} : ∀ (l : List α) (d : α), l ≠ [] → l.getLastD d ∈ l
  | [], _, h => absurd rfl h
  | [_], _, _ => by simp [List.getLastD]
  | a :: b :: t, d, _ => by
    rw [List.getLastD_cons]
    exact List.mem_cons_of_mem a (getLastD_mem (b :: t) a (by simp))

/-- In a list sorted by ascending price, the (defaulted) head's price is
at most the (defaulted) last element's price. -/
theorem headD_price_le_getLastD_price :
    ∀ {l : List PriceData}, List.Sorted priceAsc l →
      (l.headD emptyPriceData).price ≤ (l.getLastD emptyPriceData).price
  | [], _ => le_refl _
  | [_], _ => by simp [List.getLastD]
  | a :: b :: t, h => by
    rw [List.headD_cons, List.getLastD_cons]
    exact (List.sorted_cons.mp h).1 _ (getLastD_mem (b :: t) a (by simp))

/-! ## Grouping lemmas -/

/-- Lemma: `addToGroups` preserves the key set exactly (existing key) or
extends it with the new quote's key (fresh key); in both cases keys stay
pairwise distinct and of the `strLower` form. -/
theorem addToGroups_inv (acc : List (String × List PriceData)) (d : PriceData)
    (h1 : (acc.map Prod.fst).Nodup) (h2 : ∀ g ∈ acc, ∃ x, g.1 = strLower x) :
    ((addToGroups acc d).map Prod.fst).Nodup ∧
      ∀ g ∈ addToGroups acc d, ∃ x, g.1 = strLower x := by
  unfold addToGroups
  by_cases hany : acc.any (fun g => g.1 == groupKey d)
  · rw [if_pos hany]
    have hkeys : (acc.map (fun g => if g.1 == groupKey d then (g.1, g.2 ++ [d]) else g)).map
        Prod.fst = acc.map Prod.fst := by
      rw [List.map_map]
      exact List.map_congr_left (fun g _ => by
        by_cases hg : g.1 = groupKey d <;> simp [beq_iff_eq, hg])
    constructor
    · rw [hkeys]; exact h1
    · intro g hg
      rcases List.mem_map.mp hg with ⟨g0, hg0, rfl⟩
      rcases h2 g0 hg0 with ⟨x, hx⟩
      by_cases hg0k : g0.1 = groupKey d
      · simp [beq_iff_eq, hg0k]
        exact ⟨baseAsset d.pair, rfl⟩
      · simp [beq_iff_eq, hg0k]
        exact ⟨x, hx⟩
  · rw [if_neg hany]
    have hnot : groupKey d ∉ acc.map Prod.fst := by
      intro hmem
      rcases List.mem_map.mp hmem with ⟨g0, hg0, hk⟩
      exact hany (List.any_eq_true.mpr ⟨g0, hg0, by simp [hk]⟩)
    constructor
    · rw [List.map_append]
      exact List.Nodup.append h1 (List.nodup_singleton _)
        (by simpa [List.disjoint_singleton] using hnot)
    · intro g hg
      rcases List.mem_append.mp hg with hg | hg
      · exact h2 g hg
      · rcases List.mem_singleton.mp hg with rfl
        exact ⟨baseAsset d.pair, rfl⟩

theorem foldl_addToGroups_inv (pd : List PriceData) :
    ∀ acc : List (String × List PriceData),
      (acc.map Prod.fst).Nodup → (∀ g ∈ acc, ∃ x, g.1 = strLower x) →
      ((pd.foldl addToGroups acc).map Prod.fst).Nodup ∧
        ∀ g ∈ pd.foldl addToGroups acc, ∃ x, g.1 = strLower x := by
  induction pd with
  | nil => exact fun acc h1 h2 => ⟨h1, h2⟩
  | cons d rest ih =>
    intro acc h1 h2
    rw [List.foldl_cons]
    rcases addToGroups_inv acc d h1 h2 with ⟨h1a, h2a⟩
    exact ih (addToGroups acc d) h1a h2a

/-- The token groups carry pairwise-distinct keys. -/
theorem groupByToken_keys_nodup (pd : List PriceData) :
    ((groupByToken pd).map Prod.fst).Nodup :=
  (foldl_addToGroups_inv pd [] (by simp) (by simp)).1

/-- Every group key is a lower-cased string. -/
theorem groupByToken_key_lower {pd : List PriceData} {g : String × List PriceData}
    (hg : g ∈ groupByToken pd) : ∃ x, g.1 = strLower x :=
  (foldl_addToGroups_inv pd [] (by simp) (by simp)).2 g hg

/-- Two groups with the same key are the same group. -/
theorem groupByToken_eq_of_key_eq {pd : List PriceData}
    {g g' : String × List PriceData} (hg : g ∈ groupByToken pd)
    (hg' : g' ∈ groupByToken pd) (h : g.1 = g'.1) : g = g' :=
  List.inj_on_of_nodup_map (groupByToken_keys_nodup pd) hg hg' h

/-! ## Detector lemmas -/

theorem sortByPriceAsc_sorted (l : List PriceData) :
    List.Sorted priceAsc (sortByPriceAsc l) :=
  List.sorted_insertionSort priceAsc l

theorem sortByPriceAsc_perm (l : List PriceData) : (sortByPriceAsc l).Perm l :=
  List.perm_insertionSort priceAsc l

theorem sortByNetProfitDesc_sorted (l : List ArbitrageOpportunity) :
    List.Sorted netProfitDesc (sortByNetProfitDesc l) :=
  List.sorted_insertionSort netProfitDesc l

theorem sortByNetProfitDesc_perm (l : List ArbitrageOpportunity) :
    (sortByNetProfitDesc l).Perm l :=
  List.perm_insertionSort netProfitDesc l

/-- Everything `analyzeGroup` guarantees about a candidate it emits:
the upper-cased token label, buy below sell (the group was sorted by
price), distinct venues, strictly positive net profit, and the
class-specific minimum-profit gate. -/
theorem analyzeGroup_spec {cfg : Config} {now : ℕ} {token : String}
    {prices : List PriceData} {o : ArbitrageOpportunity}
    (h : analyzeGroup cfg now token prices = some o) :
    o.token = strUpper token ∧ o.buyPrice ≤ o.sellPrice ∧
      o.buyExchange ≠ o.sellExchange ∧ 0 < o.netProfit ∧
      getMinProfitThreshold cfg token ≤ o.profitPercentage := by
  simp only [analyzeGroup] at h
  split at h
  · exact absurd h (by simp)
  · split at h
    · exact absurd h (by simp)
    · next hex =>
      split at h
      · next hth =>
        split at h
        · next hnp =>
          rw [Option.some_inj] at h
          subst h
          exact ⟨rfl,
            headD_price_le_getLastD_price (sortByPriceAsc_sorted prices), hex, hnp, hth⟩
        · exact absurd h (by simp)
      · exact absurd h (by simp)

/-- When the cheapest and most expensive quote of the (sorted) group
share an exchange, the group yields no candidate. -/
theorem analyzeGroup_none_of_same_exchange {cfg : Config} {now : ℕ} {token : String}
    {prices : List PriceData}
    (h : ((sortByPriceAsc prices).headD emptyPriceData).exchange =
      ((sortByPriceAsc prices).getLastD emptyPriceData).exchange) :
    analyzeGroup cfg now token prices = none := by
  simp only [analyzeGroup]
  split <;> rfl

/-- Membership in the detection stage's output comes from exactly one
token group. -/
theorem mem_detect_iff {cfg : Config} {now : ℕ} {pd : List PriceData}
    {o : ArbitrageOpportunity} :
    o ∈ detectOpportunities cfg now pd ↔
      ∃ g ∈ groupByToken pd, analyzeGroup cfg now g.1 g.2 = some o := by
  simp [detectOpportunities, List.mem_filterMap]

/-! ## Validation lemmas: the short-circuit structure of
`validateOpportunity` -/

theorem validateOpportunity_fail_numbers {cfg : Config} {opp : ArbitrageOpportunity}
    (h : ¬(isValidNumber opp.buyPrice = true ∧ isValidNumber opp.sellPrice = true)) :
    validateOpportunity cfg opp = ⟨false, "Invalid price data", 0, .REJECT⟩ := by
  have hc : (!(isValidNumber opp.buyPrice) || !(isValidNumber opp.sellPrice)) = true := by
    cases hb : isValidNumber opp.buyPrice with
    | false => simp
    | true =>
      cases hs : isValidNumber opp.sellPrice with
      | false => simp
      | true => exact absurd ⟨hb, hs⟩ h
  simp only [validateOpportunity, hc, if_true]

theorem validateOpportunity_fail_range {cfg : Config} {opp : ArbitrageOpportunity}
    (h1 : isValidNumber opp.buyPrice = true) (h2 : isValidNumber opp.sellPrice = true)
    (h3 : (validatePriceRange opp.token opp.buyPrice opp.sellPrice).valid = false) :
    validateOpportunity cfg opp =
      ⟨false, "Price out of range: " ++
        (validatePriceRange opp.token opp.buyPrice opp.sellPrice).reason, 0, .REJECT⟩ := by
  simp only [validateOpportunity, h1, h2, h3]
  simp

theorem validateOpportunity_fail_profit {cfg : Config} {opp : ArbitrageOpportunity}
    (h1 : isValidNumber opp.buyPrice = true) (h2 : isValidNumber opp.sellPrice = true)
    (h3 : (validatePriceRange opp.token opp.buyPrice opp.sellPrice).valid = true)
    (h4 : (validateProfitRate cfg opp).valid = false) :
    validateOpportunity cfg opp =
      ⟨false, "Invalid profit rate: " ++ (validateProfitRate cfg opp).reason,
        0, .REJECT⟩ := by
  simp only [validateOpportunity, h1, h2, h3, h4]
  simp

theorem validateOpportunity_fail_sources {cfg : Config} {opp : ArbitrageOpportunity}
    (h1 : isValidNumber opp.buyPrice = true) (h2 : isValidNumber opp.sellPrice = true)
    (h3 : (validatePriceRange opp.token opp.buyPrice opp.sellPrice).valid = true)
    (h4 : (validateProfitRate cfg opp).valid = true)
    (h5 : (validateSources opp.buyExchange opp.sellExchange).valid = false) :
    validateOpportunity cfg opp =
      ⟨false, "Unreliable source: " ++
        (validateSources opp.buyExchange opp.sellExchange).reason, 0, .REJECT⟩ := by
  simp only [validateOpportunity, h1, h2, h3, h4, h5]
  simp

theorem validateOpportunity_fail_stablecoin {cfg : Config} {opp : ArbitrageOpportunity}
    (h0 : reachesStablecoinCheck cfg opp) (hs : isStablecoin opp.token = true)
    (h6 : (validateStablecoin opp).valid = false) :
    validateOpportunity cfg opp =
      ⟨false, "Stablecoin anomaly: " ++ (validateStablecoin opp).reason,
        0, .REJECT⟩ := by
  rcases h0 with ⟨h1, h2, h3, h4, h5⟩
  simp only [validateOpportunity, h1, h2, h3, h4, h5, hs, h6]
  simp

theorem validateOpportunity_pass {cfg : Config} {opp : ArbitrageOpportunity}
    (h : passesChecks cfg opp) :
    validateOpportunity cfg opp = scoreOutcome opp := by
  rcases h with ⟨h1, h2, h3, h4, h5, h6⟩
  by_cases hs : isStablecoin opp.token
  · simp only [validateOpportunity, h1, h2, h3, h4, h5, hs, h6 hs]
    simp
  · simp only [validateOpportunity, h1, h2, h3, h4, h5]
    simp [Bool.eq_false_iff.mpr hs]

/-- Conversely, a valid result can only come from the accepting branch
of the scoring stage: every check passed and the score reached 70. -/
theorem validateOpportunity_isValid_elim {cfg : Config} {opp : ArbitrageOpportunity}
    (h : (validateOpportunity cfg opp).isValid = true) :
    passesChecks cfg opp ∧ validateOpportunity cfg opp = scoreOutcome opp ∧
      70 ≤ calculateScore opp ∧
      validateOpportunity cfg opp =
        ⟨true, "Passed all validation checks", calculateScore opp, .ACCEPT⟩ := by
  have h1 : isValidNumber opp.buyPrice = true := by
    by_contra hc
    rw [validateOpportunity_fail_numbers (fun hand => hc hand.1)] at h
    exact Bool.false_ne_true h
  have h2 : isValidNumber opp.sellPrice = true := by
    by_contra hc
    rw [validateOpportunity_fail_numbers (fun hand => hc hand.2)] at h
    exact Bool.false_ne_true h
  have h3 : (validatePriceRange opp.token opp.buyPrice opp.sellPrice).valid = true := by
    by_contra hc
    rw [validateOpportunity_fail_range h1 h2 (Bool.eq_false_iff.mpr hc)] at h
    exact Bool.false_ne_true h
  have h4 : (validateProfitRate cfg opp).valid = true := by
    by_contra hc
    rw [validateOpportunity_fail_profit h1 h2 h3 (Bool.eq_false_iff.mpr hc)] at h
    exact Bool.false_ne_true h
  have h5 : (validateSources opp.buyExchange opp.sellExchange).valid = true := by
    by_contra hc
    rw [validateOpportunity_fail_sources h1 h2 h3 h4 (Bool.eq_false_iff.mpr hc)] at h
    exact Bool.false_ne_true h
  have h6 : isStablecoin opp.token = true → (validateStablecoin opp).valid = true := by
    intro hs
    by_contra hc
    rw [validateOpportunity_fail_stablecoin ⟨h1, h2, h3, h4, h5⟩ hs
      (Bool.eq_false_iff.mpr hc)] at h
    exact Bool.false_ne_true h
  have hpass : passesChecks cfg opp := ⟨h1, h2, h3, h4, h5, h6⟩
  have heq := validateOpportunity_pass hpass
  have hscore : 70 ≤ calculateScore opp := by
    by_contra hlt
    rw [heq] at h
    simp only [scoreOutcome] at h
    rw [if_neg (by exact fun hge => hlt (by exact_mod_cast hge))] at h
    split at h <;> exact Bool.false_ne_true h
  refine ⟨hpass, heq, hscore, ?_⟩
  rw [heq]
  simp only [scoreOutcome]
  rw [if_pos (by exact_mod_cast hscore)]

/-! ## Filter lemmas -/

theorem filterLoop_eq (cfg : Config) : ∀ l : List ArbitrageOpportunity,
    filterLoop cfg l =
      ((l.filter (fun o => (validateOpportunity cfg o).isValid)).map (acceptedCopy cfg),
        l.filter (fun o => !(validateOpportunity cfg o).isValid))
  | [] => rfl
  | o :: rest => by
    have ih := filterLoop_eq cfg rest
    simp only [filterLoop, ih]
    by_cases hv : (validateOpportunity cfg o).isValid
    · simp [List.filter_cons, hv]
    · simp [List.filter_cons, hv]

theorem filterOpportunities_accepted (cfg : Config) (l : List ArbitrageOpportunity) :
    (filterOpportunities cfg l).accepted =
      sortByNetProfitDesc
        ((l.filter (fun o => (validateOpportunity cfg o).isValid)).map
          (acceptedCopy cfg)) := by
  simp [filterOpportunities, filterLoop_eq]

theorem filterOpportunities_rejected (cfg : Config) (l : List ArbitrageOpportunity) :
    (filterOpportunities cfg l).rejected =
      l.filter (fun o => !(validateOpportunity cfg o).isValid) := by
  simp [filterOpportunities, filterLoop_eq]

theorem mem_filterAccepted {cfg : Config} {l : List ArbitrageOpportunity}
    {o : ArbitrageOpportunity} :
    o ∈ (filterOpportunities cfg l).accepted ↔
      ∃ p ∈ l, (validateOpportunity cfg p).isValid = true ∧ o = acceptedCopy cfg p := by
  rw [filterOpportunities_accepted]
  constructor
  · intro hm
    have hm2 := (sortByNetProfitDesc_perm _).mem_iff.mp hm
    rcases List.mem_map.mp hm2 with ⟨p, hp, rfl⟩
    rcases List.mem_filter.mp hp with ⟨hpl, hpv⟩
    exact ⟨p, hpl, hpv, rfl⟩
  · rintro ⟨p, hpl, hpv, rfl⟩
    exact (sortByNetProfitDesc_perm _).mem_iff.mpr
      (List.mem_map_of_mem _ (List.mem_filter.mpr ⟨hpl, hpv⟩))

/-! ## Case-insensitivity corollaries -/

theorem getPriceRange_strUpper (t : String) :
    getPriceRange (strUpper t) = getPriceRange t := by
  unfold getPriceRange
  rw [strUpper_strUpper]

theorem getMinProfitThreshold_strUpper (cfg : Config) (t : String) :
    getMinProfitThreshold cfg (strUpper t) = getMinProfitThreshold cfg t := by
  unfold getMinProfitThreshold
  rw [getPriceRange_strUpper]

theorem isStablecoin_strUpper (t : String) :
    isStablecoin (strUpper t) = isStablecoin t := by
  unfold isStablecoin
  rw [strUpper_strUpper]

/-! ## From the published list back to the detection stage -/

/-- Fields other than `confidence` survive the accepted-copy update. -/
theorem acceptedCopy_fields (cfg : Config) (p : ArbitrageOpportunity) :
    (acceptedCopy cfg p).token = p.token ∧
      (acceptedCopy cfg p).buyExchange = p.buyExchange ∧
      (acceptedCopy cfg p).sellExchange = p.sellExchange ∧
      (acceptedCopy cfg p).buyPrice = p.buyPrice ∧
      (acceptedCopy cfg p).sellPrice = p.sellPrice ∧
      (acceptedCopy cfg p).netProfit = p.netProfit ∧
      (acceptedCopy cfg p).profitPercentage = p.profitPercentage :=
  ⟨rfl, rfl, rfl, rfl, rfl, rfl, rfl⟩

/-- Every published opportunity (filter on or off) agrees with some
detected candidate on every field except possibly `confidence`. -/
theorem mem_analyze_fields {cfg : Config} {now : ℕ} {pd : List PriceData}
    {o : ArbitrageOpportunity} (h : o ∈ analyzeArbitrageOpportunities cfg now pd) :
    ∃ p ∈ detectOpportunities cfg now pd,
      o.token = p.token ∧ o.buyExchange = p.buyExchange ∧
        o.sellExchange = p.sellExchange ∧ o.buyPrice = p.buyPrice ∧
        o.sellPrice = p.sellPrice ∧ o.netProfit = p.netProfit ∧
        o.profitPercentage = p.profitPercentage := by
  unfold analyzeArbitrageOpportunities at h
  by_cases hf : cfg.EMERGENCY_FILTER_ENABLED
  · rw [if_pos hf] at h
    rcases mem_filterAccepted.mp h with ⟨p, hp, _, rfl⟩
    exact ⟨p, hp, acceptedCopy_fields cfg p⟩
  · rw [if_neg hf] at h
    have hp := (sortByNetProfitDesc_perm _).mem_iff.mp h
    exact ⟨o, hp, rfl, rfl, rfl, rfl, rfl, rfl, rfl⟩

/-! ## Evaluation lemmas for `analyzeGroup` on concrete groups -/

/-- Computation rule for a group that yields a candidate: all
intermediate values supplied as equations. -/
theorem analyzeGroup_eval {cfg : Config} {now : ℕ} {token : String}
    {prices sorted : List PriceData} {cheap exp : PriceData} {diff pct pot net : ℚ}
    (hlen : ¬ prices.length < 2)
    (hsort : sortByPriceAsc prices = sorted)
    (hc : sorted.headD emptyPriceData = cheap)
    (he : sorted.getLastD emptyPriceData = exp)
    (hne : ¬ cheap.exchange = exp.exchange)
    (hdiff : exp.price - cheap.price = diff)
    (hpct : diff / cheap.price * 100 = pct)
    (hth : getMinProfitThreshold cfg token ≤ pct)
    (hpot : cfg.TRADE_AMOUNT * pct / 100 = pot)
    (hnet : pot - estimateGasCost = net)
    (hpos : 0 < net) :
    analyzeGroup cfg now token prices =
      some ⟨strUpper token, cheap.exchange, exp.exchange, cheap.price, exp.price,
        diff, pot, estimateGasCost, net, pct,
        calculateConfidence cheap exp pct, now⟩ := by
  subst hsort hc he hdiff hpct hpot hnet
  simp only [analyzeGroup]
  rw [if_neg hlen, if_neg hne, if_pos hth, if_pos hpos]

/-- Computation rule for a group whose candidate dies at the
net-profit gate. -/
theorem analyzeGroup_eval_noprofit {cfg : Config} {now : ℕ} {token : String}
    {prices sorted : List PriceData} {cheap exp : PriceData} {diff pct pot net : ℚ}
    (hlen : ¬ prices.length < 2)
    (hsort : sortByPriceAsc prices = sorted)
    (hc : sorted.headD emptyPriceData = cheap)
    (he : sorted.getLastD emptyPriceData = exp)
    (hne : ¬ cheap.exchange = exp.exchange)
    (hdiff : exp.price - cheap.price = diff)
    (hpct : diff / cheap.price * 100 = pct)
    (hth : getMinProfitThreshold cfg token ≤ pct)
    (hpot : cfg.TRADE_AMOUNT * pct / 100 = pot)
    (hnet : pot - estimateGasCost = net)
    (hpos : ¬ 0 < net) :
    analyzeGroup cfg now token prices = none := by
  subst hsort hc he hdiff hpct hpot hnet
  simp only [analyzeGroup]
  rw [if_neg hlen, if_neg hne, if_pos hth, if_neg hpos]

/-! ## Filter counting -/

theorem filterLoop_length (cfg : Config) : ∀ l : List ArbitrageOpportunity,
    (filterLoop cfg l).1.length + (filterLoop cfg l).2.length = l.length
  | [] => rfl
  | o :: rest => by
    have ih := filterLoop_length cfg rest
    simp only [filterLoop]
    by_cases hv : (validateOpportunity cfg o).isValid
    · simp only [hv, if_true, List.length_cons]
      omega
    · simp only [hv, if_false, Bool.false_eq_true, List.length_cons]
      omega

/-! ## Concrete evaluations -/

theorem sortByNetProfitDesc_nil : sortByNetProfitDesc [] = [] := rfl

theorem sortByNetProfitDesc_singleton (o : ArbitrageOpportunity) :
    sortByNetProfitDesc [o] = [o] := by
  simp [sortByNetProfitDesc, List.insertionSort, List.orderedInsert]

theorem getPriceRange_pepe : getPriceRange "pepe" = none := by decide

theorem getPriceRange_eth : getPriceRange "eth" = some ⟨1500, 15000, "major-crypto"⟩ := by
  decide

theorem getPriceRange_ETHcap : getPriceRange "ETH" = some ⟨1500, 15000, "major-crypto"⟩ := by
  decide

theorem minthr_pepe (cfg : Config) :
    getMinProfitThreshold cfg "pepe" = cfg.MIN_PROFIT_THRESHOLD := by
  simp [getMinProfitThreshold, getPriceRange_pepe]

theorem minthr_eth (cfg : Config) : getMinProfitThreshold cfg "eth" = 0.5 := by
  simp [getMinProfitThreshold, getPriceRange_eth]

theorem group_pdC3 : groupByToken pdC3 = [("pepe", pdC3)] := by decide

theorem group_pdC9 : groupByToken pdC9 = [("eth", pdC9)] := by decide

theorem sort_pdC3 : sortByPriceAsc pdC3 = pdC3 := by decide

theorem sort_pdC9 : sortByPriceAsc pdC9 = pdC9 := by decide

theorem analyzeGroup_pdC3 (cfg : Config) (hta : cfg.TRADE_AMOUNT = 1000)
    (hmp : cfg.MIN_PROFIT_THRESHOLD = 0.5) :
    analyzeGroup cfg 0 "pepe" pdC3 = some oppC3 := by
  have h := @analyzeGroup_eval cfg 0 "pepe" pdC3 pdC3 pC3a pC3b 3 3 30 7.5
    (by decide) sort_pdC3 (by decide) (by decide) (by decide)
    (by with_unfolding_all decide) (by with_unfolding_all decide)
    (by rw [minthr_pepe, hmp]; with_unfolding_all decide)
    (by rw [hta]; with_unfolding_all decide)
    (by with_unfolding_all decide) (by with_unfolding_all decide)
  rw [h]
  with_unfolding_all decide

theorem detect_pdC3 (cfg : Config) (hta : cfg.TRADE_AMOUNT = 1000)
    (hmp : cfg.MIN_PROFIT_THRESHOLD = 0.5) :
    detectOpportunities cfg 0 pdC3 = [oppC3] := by
  rw [detectOpportunities, group_pdC3]
  simp [analyzeGroup_pdC3 cfg hta hmp]

theorem analyze_pdC3 : analyzeArbitrageOpportunities defaultConfig 0 pdC3 = [oppC3] := by
  simp only [analyzeArbitrageOpportunities]
  rw [if_neg (by decide), detect_pdC3 defaultConfig rfl rfl,
    sortByNetProfitDesc_singleton]

theorem analyzeGroup_pdC9_at1000 (cfg : Config) (hta : cfg.TRADE_AMOUNT = 1000) :
    analyzeGroup cfg 0 "eth" pdC9 = none := by
  exact @analyzeGroup_eval_noprofit cfg 0 "eth" pdC9 pdC9 pC9a pC9b 60 2 20 (-2.5)
    (by decide) sort_pdC9 (by decide) (by decide) (by decide)
    (by with_unfolding_all decide) (by with_unfolding_all decide)
    (by rw [minthr_eth]; with_unfolding_all decide)
    (by rw [hta]; with_unfolding_all decide)
    (by with_unfolding_all decide) (by with_unfolding_all decide)

theorem analyzeGroup_pdC9_at10000 (cfg : Config) (hta : cfg.TRADE_AMOUNT = 10000) :
    analyzeGroup cfg 0 "eth" pdC9 = some oppC9 := by
  have h := @analyzeGroup_eval cfg 0 "eth" pdC9 pdC9 pC9a pC9b 60 2 200 177.5
    (by decide) sort_pdC9 (by decide) (by decide) (by decide)
    (by with_unfolding_all decide) (by with_unfolding_all decide)
    (by rw [minthr_eth]; with_unfolding_all decide)
    (by rw [hta]; with_unfolding_all decide)
    (by with_unfolding_all decide) (by with_unfolding_all decide)
  rw [h]
  simp only [Option.some_inj, oppC9, ArbitrageOpportunity.mk.injEq]
  refine ⟨by decide, by decide, by decide, by decide, by decide, ?_, ?_, ?_, ?_, ?_,
    by decide, by decide⟩ <;> with_unfolding_all decide

theorem detect_pdC9_at1000 (cfg : Config) (hta : cfg.TRADE_AMOUNT = 1000) :
    detectOpportunities cfg 0 pdC9 = [] := by
  rw [detectOpportunities, group_pdC9]
  simp [analyzeGroup_pdC9_at1000 cfg hta]

theorem detect_pdC9_at10000 (cfg : Config) (hta : cfg.TRADE_AMOUNT = 10000) :
    detectOpportunities cfg 0 pdC9 = [oppC9] := by
  rw [detectOpportunities, group_pdC9]
  simp [analyzeGroup_pdC9_at10000 cfg hta]

theorem analyze_pdC9_default :
    analyzeArbitrageOpportunities defaultConfig 0 pdC9 = [] := by
  simp only [analyzeArbitrageOpportunities]
  rw [if_neg (by decide), detect_pdC9_at1000 defaultConfig rfl, sortByNetProfitDesc_nil]

theorem analyze_pdC9_defaultOn :
    analyzeArbitrageOpportunities
      { defaultConfig with EMERGENCY_FILTER_ENABLED := true } 0 pdC9 = [] := by
  simp only [analyzeArbitrageOpportunities, if_true]
  rw [detect_pdC9_at1000 _ rfl]
  rfl

theorem reliability_VenueA : getSourceReliability "VenueA" = 5 := by decide

theorem reliability_VenueB : getSourceReliability "VenueB" = 5 := by decide

theorem score_oppC9 : calculateScore oppC9 = 65 := by
  simp only [calculateScore, oppC9, getPriceRange_ETHcap, reliability_VenueA,
    reliability_VenueB, typeBonus]
  with_unfolding_all decide

theorem passes_oppC9 (cfg : Config) : passesChecks cfg oppC9 := by
  refine ⟨by decide, by decide, by decide, ?_, by decide, fun hs => absurd hs (by decide)⟩
  simp only [validateProfitRate, oppC9, getPriceRange_ETHcap, maxProfitRates]
  simp only [String.reduceEq, if_true, if_false]
  rw [if_neg (by with_unfolding_all decide)]

theorem validate_oppC9 (cfg : Config) :
    validateOpportunity cfg oppC9 =
      ⟨false, "Moderate confidence, requires manual review", 65, .CAUTION⟩ := by
  rw [validateOpportunity_pass (passes_oppC9 cfg), scoreOutcome, score_oppC9]
  rw [if_neg (by with_unfolding_all decide), if_pos (by with_unfolding_all decide)]

theorem getPriceRange_USDC : getPriceRange "USDC" = some ⟨0.90, 1.10, "stablecoin"⟩ := by
  with_unfolding_all decide

theorem profitOk_oppStableDev (cfg : Config) :
    (validateProfitRate cfg oppStableDev).valid = true := by
  simp only [validateProfitRate, oppStableDev, getPriceRange_USDC, maxProfitRates]
  simp only [String.reduceEq, if_true, if_false]
  rw [if_neg (by with_unfolding_all decide)]

theorem rangeOk_oppStableDev :
    (validatePriceRange oppStableDev.token oppStableDev.buyPrice
      oppStableDev.sellPrice).valid = true := by
  with_unfolding_all decide

theorem reaches_oppStableDev (cfg : Config) : reachesStablecoinCheck cfg oppStableDev :=
  ⟨by with_unfolding_all decide, by with_unfolding_all decide, rangeOk_oppStableDev,
    profitOk_oppStableDev cfg, by decide⟩

theorem stableFail_oppStableDev : (validateStablecoin oppStableDev).valid = false := by
  with_unfolding_all decide

theorem profitOk_oppStableOk (cfg : Config) :
    (validateProfitRate cfg oppStableOk).valid = true := by
  simp only [validateProfitRate, oppStableOk, getPriceRange_USDC, maxProfitRates]
  simp only [String.reduceEq, if_true, if_false]
  rw [if_neg (by with_unfolding_all decide)]

theorem stableOk_oppStableOk : (validateStablecoin oppStableOk).valid = true := by
  with_unfolding_all decide

theorem passes_oppStableOk (cfg : Config) : passesChecks cfg oppStableOk :=
  ⟨by with_unfolding_all decide, by with_unfolding_all decide,
    by with_unfolding_all decide, profitOk_oppStableOk cfg, by decide,
    fun _ => stableOk_oppStableOk⟩

theorem reliability_binance : getSourceReliability "binance" = 12 := by decide

theorem reliability_coinbase : getSourceReliability "coinbase" = 12 := by decide

theorem score_oppStableOk : calculateScore oppStableOk = 84 := by
  simp only [calculateScore, oppStableOk, getPriceRange_USDC, reliability_binance,
    reliability_coinbase, typeBonus]
  with_unfolding_all decide

theorem validate_oppStableOk (cfg : Config) :
    validateOpportunity cfg oppStableOk =
      ⟨true, "Passed all validation checks", 84, .ACCEPT⟩ := by
  rw [validateOpportunity_pass (passes_oppStableOk cfg), scoreOutcome, score_oppStableOk]
  rw [if_pos (by with_unfolding_all decide)]

theorem group_pdC5 : groupByToken pdC5 = [("eth", pdC5)] := by decide

theorem sort_pdC5 : sortByPriceAsc pdC5 = pdC5 := by decide

theorem analyzeGroup_pdC5 (cfg : Config) (hta : cfg.TRADE_AMOUNT = 10000) :
    analyzeGroup cfg 0 "eth" pdC5 = some oppC5 := by
  have h := @analyzeGroup_eval cfg 0 "eth" pdC5 pdC5 pC5a pC5b 60 2 200 177.5
    (by decide) sort_pdC5 (by decide) (by decide) (by decide)
    (by with_unfolding_all decide) (by with_unfolding_all decide)
    (by rw [minthr_eth]; with_unfolding_all decide)
    (by rw [hta]; with_unfolding_all decide)
    (by with_unfolding_all decide) (by with_unfolding_all decide)
  rw [h]
  simp only [Option.some_inj, oppC5, ArbitrageOpportunity.mk.injEq]
  refine ⟨by decide, by decide, by decide, by decide, by decide, ?_, ?_, ?_, ?_, ?_,
    by decide, by decide⟩ <;> with_unfolding_all decide

theorem detect_pdC5 (cfg : Config) (hta : cfg.TRADE_AMOUNT = 10000) :
    detectOpportunities cfg 0 pdC5 = [oppC5] := by
  rw [detectOpportunities, group_pdC5]
  simp [analyzeGroup_pdC5 cfg hta]

theorem passes_oppC5 (cfg : Config) : passesChecks cfg oppC5 := by
  refine ⟨by decide, by decide, by decide, ?_, by decide, fun hs => absurd hs (by decide)⟩
  simp only [validateProfitRate, oppC5, getPriceRange_ETHcap, maxProfitRates]
  simp only [String.reduceEq, if_true, if_false]
  rw [if_neg (by with_unfolding_all decide)]

theorem score_oppC5 : calculateScore oppC5 = 79 := by
  simp only [calculateScore, oppC5, getPriceRange_ETHcap, reliability_binance,
    reliability_coinbase, typeBonus]
  with_unfolding_all decide

theorem validate_oppC5 (cfg : Config) :
    validateOpportunity cfg oppC5 =
      ⟨true, "Passed all validation checks", 79, .ACCEPT⟩ := by
  rw [validateOpportunity_pass (passes_oppC5 cfg), scoreOutcome, score_oppC5]
  rw [if_pos (by with_unfolding_all decide)]

theorem analyze_pdC5 :
    analyzeArbitrageOpportunities cfgC9 0 pdC5 = [acceptedCopy cfgC9 oppC5] := by
  simp only [analyzeArbitrageOpportunities]
  rw [if_pos (show cfgC9.EMERGENCY_FILTER_ENABLED = true from rfl)]
  rw [detect_pdC5 _ rfl, filterOpportunities_accepted]
  rw [List.filter_cons, List.filter_nil]
  rw [if_pos (by rw [validate_oppC5])]
  rw [List.map_cons, List.map_nil, sortByNetProfitDesc_singleton]

theorem analyze_pdC9_cfgC9 : analyzeArbitrageOpportunities cfgC9 0 pdC9 = [] := by
  simp only [analyzeArbitrageOpportunities]
  rw [if_pos (show cfgC9.EMERGENCY_FILTER_ENABLED = true from rfl)]
  rw [detect_pdC9_at10000 _ rfl, filterOpportunities_accepted]
  rw [List.filter_cons, List.filter_nil]
  rw [if_neg (by rw [validate_oppC9]; exact Bool.false_ne_true)]
  rw [List.map_nil, sortByNetProfitDesc_nil]

/-! ## Stablecoin-check characterization -/

theorem validateStablecoin_fail {opp : ArbitrageOpportunity}
    (hs : isStablecoin opp.token = true)
    (hdev : |opp.buyPrice - 1.0| / 1.0 > 0.05 ∨ |opp.sellPrice - 1.0| / 1.0 > 0.05) :
    (validateStablecoin opp).valid = false := by
  have hs2 : isStablecoin (strUpper opp.token) = true := by
    rw [isStablecoin_strUpper]; exact hs
  simp only [validateStablecoin, hs2, Bool.not_true, Bool.false_eq_true, if_false]
  rcases hdev with hb | hsell
  · rw [if_pos hb]
  · by_cases hb : |opp.buyPrice - 1.0| / 1.0 > 0.05
    · rw [if_pos hb]
    · rw [if_neg hb, if_pos hsell]

theorem validateStablecoin_pass {opp : ArbitrageOpportunity}
    (h1 : |opp.buyPrice - 1.0| / 1.0 ≤ 0.05) (h2 : |opp.sellPrice - 1.0| / 1.0 ≤ 0.05) :
    (validateStablecoin opp).valid = true := by
  simp only [validateStablecoin]
  by_cases hs : isStablecoin (strUpper opp.token)
  · simp only [hs, Bool.not_true, Bool.false_eq_true, if_false]
    rw [if_neg (not_lt.mpr h1), if_neg (not_lt.mpr h2)]
  · simp only [Bool.eq_false_iff.mpr hs, Bool.not_false, if_true]

theorem passes_to_reaches {cfg : Config} {opp : ArbitrageOpportunity}
    (h : passesChecks cfg opp) : reachesStablecoinCheck cfg opp :=
  ⟨h.1, h.2.1, h.2.2.1, h.2.2.2.1, h.2.2.2.2.1⟩

/-! ## Claim theorems -/

/-- C1: for every input price-data list and every token group with at
least two quotes, if the cheapest-priced and most-expensive-priced
quote of that group (after the stable sort by price) come from the same
exchange — in particular whenever all of the group's quotes come from a
single distinct source — then `analyzeArbitrageOpportunities` produces
no opportunity labelled with that group's (upper-cased) token. -/
theorem claim_C1_same_venue_group_yields_nothing
    (cfg : Config) (now : ℕ) (pd : List PriceData)
    (g : String × List PriceData) (hg : g ∈ groupByToken pd)
    (hlen : 2 ≤ g.2.length) :
    (((sortByPriceAsc g.2).headD emptyPriceData).exchange =
        ((sortByPriceAsc g.2).getLastD emptyPriceData).exchange →
      strUpper g.1 ∉
        (analyzeArbitrageOpportunities cfg now pd).map ArbitrageOpportunity.token) ∧
    ((∀ d1 ∈ g.2, ∀ d2 ∈ g.2, d1.exchange = d2.exchange) →
      strUpper g.1 ∉
        (analyzeArbitrageOpportunities cfg now pd).map ArbitrageOpportunity.token) := by
  have main : ((sortByPriceAsc g.2).headD emptyPriceData).exchange =
      ((sortByPriceAsc g.2).getLastD emptyPriceData).exchange →
      strUpper g.1 ∉
        (analyzeArbitrageOpportunities cfg now pd).map ArbitrageOpportunity.token := by
    intro hex hmem
    rcases List.mem_map.mp hmem with ⟨o, ho, htok⟩
    rcases mem_analyze_fields ho with ⟨p, hp, hfields⟩
    rcases mem_detect_iff.mp hp with ⟨g1, hg1, hag⟩
    have hptok := (analyzeGroup_spec hag).1
    have hkey : strUpper g1.1 = strUpper g.1 := by
      rw [← hptok, ← hfields.1, htok]
    rcases groupByToken_key_lower hg1 with ⟨x, hx⟩
    rcases groupByToken_key_lower hg with ⟨y, hy⟩
    have hk : g1.1 = g.1 := by
      rw [hx, hy]
      rw [hx, hy] at hkey
      exact strUpper_lower_inj hkey
    have hgg : g1 = g := groupByToken_eq_of_key_eq hg1 hg hk
    rw [hgg, analyzeGroup_none_of_same_exchange hex] at hag
    exact Option.noConfusion hag
  refine ⟨main, fun hall => main ?_⟩
  have hne : g.2 ≠ [] := by
    intro h0
    rw [h0] at hlen
    simp at hlen
  have hsne : sortByPriceAsc g.2 ≠ [] := by
    intro h0
    have hlensort := (sortByPriceAsc_perm g.2).length_eq
    rw [h0] at hlensort
    exact hne (List.eq_nil_of_length_eq_zero hlensort.symm)
  have hhm : (sortByPriceAsc g.2).headD emptyPriceData ∈ g.2 :=
    (sortByPriceAsc_perm g.2).mem_iff.mp (headD_mem _ emptyPriceData hsne)
  have hlm : (sortByPriceAsc g.2).getLastD emptyPriceData ∈ g.2 :=
    (sortByPriceAsc_perm g.2).mem_iff.mp (getLastD_mem _ emptyPriceData hsne)
  exact hall _ hhm _ hlm

/-- C1 witness: two ETH quotes, both from uniswap, yield no ETH
opportunity. -/
theorem claim_C1_witness :
    strUpper "eth" ∉
      (analyzeArbitrageOpportunities defaultConfig 0 pdC1).map
        ArbitrageOpportunity.token :=
  (claim_C1_same_venue_group_yields_nothing defaultConfig 0 pdC1 ("eth", pdC1)
    (by decide) (by decide)).1 (by decide)

/-- C2: every published opportunity satisfies `sellPrice ≥ buyPrice`,
`buyExchange ≠ sellExchange` and `netProfit > 0`, with the filter
enabled or disabled. -/
theorem claim_C2_invariants (cfg : Config) (now : ℕ) (pd : List PriceData)
    (o : ArbitrageOpportunity)
    (ho : o ∈ analyzeArbitrageOpportunities cfg now pd) :
    o.buyPrice ≤ o.sellPrice ∧ o.buyExchange ≠ o.sellExchange ∧ 0 < o.netProfit := by
  rcases mem_analyze_fields ho with ⟨p, hp, ht, hbe, hse, hbp, hsp, hnp, hpp⟩
  rcases mem_detect_iff.mp hp with ⟨g, hgm, hag⟩
  rcases analyzeGroup_spec hag with ⟨_, hle, hnex, hpos, _⟩
  refine ⟨?_, ?_, ?_⟩
  · rw [hbp, hsp]; exact hle
  · rw [hbe, hse]; exact hnex
  · rw [hnp]; exact hpos

/-- C2 witness: the PEPE opportunity derived from `pdC3`. -/
theorem claim_C2_witness :
    oppC3.buyPrice ≤ oppC3.sellPrice ∧ oppC3.buyExchange ≠ oppC3.sellExchange ∧
      0 < oppC3.netProfit :=
  claim_C2_invariants defaultConfig 0 pdC3 oppC3
    (by rw [analyze_pdC3]; exact List.mem_singleton_self _)

/-- C3 counterexample: the claim's threshold table (unclassified
altcoins require 5%) fails on the code: the unclassified token `PEPE`
with a 3% spread does produce a candidate under the default
configuration, because unclassified tokens actually fall back to
`MIN_PROFIT_THRESHOLD` (0.5% by default) — the `altcoin: 5%` table
entry is unreachable (no classified token has type `altcoin`). -/
theorem claim_C3_counterexample :
    ¬ ∀ o ∈ detectOpportunities defaultConfig 0 pdC3,
        specMinProfitThreshold o.token ≤ o.profitPercentage := by
  intro hall
  have h := hall oppC3
    (by rw [detect_pdC3 defaultConfig rfl rfl]; exact List.mem_singleton_self _)
  have hspec : specMinProfitThreshold oppC3.token = 5.0 := by
    simp [specMinProfitThreshold, oppC3, (by decide : getPriceRange "PEPE" = none)]
  rw [hspec] at h
  exact absurd h (by with_unfolding_all decide)

/-- C3 (amended): a candidate is constructed only if its gross profit
percentage meets the asset-class-specific minimum threshold computed by
`getMinProfitThreshold`; stablecoins require the smallest edge (0.1%),
while unclassified tokens fall back to the configured
`MIN_PROFIT_THRESHOLD` (0.5% by default) rather than the 5% the spec
attributes to unclassified altcoins. -/
theorem claim_C3_min_profit_gate (cfg : Config) (now : ℕ) (pd : List PriceData) :
    (∀ o ∈ detectOpportunities cfg now pd,
        getMinProfitThreshold cfg o.token ≤ o.profitPercentage) ∧
    (∀ t, getPriceRange t = none →
        getMinProfitThreshold cfg t = cfg.MIN_PROFIT_THRESHOLD) ∧
    getMinProfitThreshold cfg "DAI" = 0.1 := by
  refine ⟨?_, ?_, ?_⟩
  · intro o ho
    rcases mem_detect_iff.mp ho with ⟨g, hgm, hag⟩
    rcases analyzeGroup_spec hag with ⟨htok, _, _, _, hth⟩
    rw [htok, getMinProfitThreshold_strUpper]
    exact hth
  · intro t ht
    simp [getMinProfitThreshold, ht]
  · simp [getMinProfitThreshold,
      (by with_unfolding_all decide :
        getPriceRange "DAI" = some ⟨0.90, 1.10, "stablecoin"⟩)]

/-- C3 witness: the gate holds for the PEPE opportunity, and `pepe`
being unclassified gets the configured default threshold. -/
theorem claim_C3_witness :
    getMinProfitThreshold defaultConfig oppC3.token ≤ oppC3.profitPercentage ∧
      getMinProfitThreshold defaultConfig "pepe" =
        defaultConfig.MIN_PROFIT_THRESHOLD :=
  ⟨(claim_C3_min_profit_gate defaultConfig 0 pdC3).1 oppC3
      (by rw [detect_pdC3 defaultConfig rfl rfl]; exact List.mem_singleton_self _),
    (claim_C3_min_profit_gate defaultConfig 0 pdC3).2.1 "pepe" (by decide)⟩

/-- C4: `validateOpportunity` applies its checks in the fixed source
order — numeric sanity, price band, profit-rate ceiling, source
reliability, stablecoin deviation, then scoring — returning at the
first failing check with that check's reason (and `isValid = false`,
score 0, `REJECT`); when no check fails, the scoring stage runs. -/
theorem claim_C4_short_circuit_order (cfg : Config) (opp : ArbitrageOpportunity) :
    (¬(isValidNumber opp.buyPrice = true ∧ isValidNumber opp.sellPrice = true) →
        validateOpportunity cfg opp = ⟨false, "Invalid price data", 0, .REJECT⟩) ∧
    (isValidNumber opp.buyPrice = true → isValidNumber opp.sellPrice = true →
      (validatePriceRange opp.token opp.buyPrice opp.sellPrice).valid = false →
        validateOpportunity cfg opp =
          ⟨false, "Price out of range: " ++
            (validatePriceRange opp.token opp.buyPrice opp.sellPrice).reason,
            0, .REJECT⟩) ∧
    (isValidNumber opp.buyPrice = true → isValidNumber opp.sellPrice = true →
      (validatePriceRange opp.token opp.buyPrice opp.sellPrice).valid = true →
      (validateProfitRate cfg opp).valid = false →
        validateOpportunity cfg opp =
          ⟨false, "Invalid profit rate: " ++ (validateProfitRate cfg opp).reason,
            0, .REJECT⟩) ∧
    (isValidNumber opp.buyPrice = true → isValidNumber opp.sellPrice = true →
      (validatePriceRange opp.token opp.buyPrice opp.sellPrice).valid = true →
      (validateProfitRate cfg opp).valid = true →
      (validateSources opp.buyExchange opp.sellExchange).valid = false →
        validateOpportunity cfg opp =
          ⟨false, "Unreliable source: " ++
            (validateSources opp.buyExchange opp.sellExchange).reason,
            0, .REJECT⟩) ∧
    (reachesStablecoinCheck cfg opp → isStablecoin opp.token = true →
      (validateStablecoin opp).valid = false →
        validateOpportunity cfg opp =
          ⟨false, "Stablecoin anomaly: " ++ (validateStablecoin opp).reason,
            0, .REJECT⟩) ∧
    (passesChecks cfg opp → validateOpportunity cfg opp = scoreOutcome opp) :=
  ⟨validateOpportunity_fail_numbers,
    fun h1 h2 h3 => validateOpportunity_fail_range h1 h2 h3,
    fun h1 h2 h3 h4 => validateOpportunity_fail_profit h1 h2 h3 h4,
    fun h1 h2 h3 h4 h5 => validateOpportunity_fail_sources h1 h2 h3 h4 h5,
    fun h0 hs h6 => validateOpportunity_fail_stablecoin h0 hs h6,
    fun h => validateOpportunity_pass h⟩

/-- C4 witness: a zero buy price dies at the first check with its
reason; a de-pegged USDC candidate that passes the four earlier checks
dies at the stablecoin check with that check's reason. -/
theorem claim_C4_witness :
    validateOpportunity defaultConfig oppBadPrice =
      ⟨false, "Invalid price data", 0, .REJECT⟩ ∧
    validateOpportunity defaultConfig oppStableDev =
      ⟨false, "Stablecoin anomaly: " ++ (validateStablecoin oppStableDev).reason,
        0, .REJECT⟩ :=
  ⟨(claim_C4_short_circuit_order defaultConfig oppBadPrice).1 (by decide),
    (claim_C4_short_circuit_order defaultConfig oppStableDev).2.2.2.2.1
      (reaches_oppStableDev defaultConfig) (by decide) stableFail_oppStableDev⟩

/-- C5: for a candidate passing all checks the score decides the
outcome — `≥ 70` gives ACCEPT with `isValid = true` and the score maps
to `high` confidence, `[40, 70)` gives CAUTION with `isValid = false`
(score maps to `medium`), `< 40` gives REJECT (score maps to `low`);
and with the filter enabled the published list contains exactly
accepted candidates, re-labelled with `high` confidence. -/
theorem claim_C5_score_mapping :
    (∀ (cfg : Config) (opp : ArbitrageOpportunity), passesChecks cfg opp →
      (70 ≤ calculateScore opp →
        validateOpportunity cfg opp =
          ⟨true, "Passed all validation checks", calculateScore opp, .ACCEPT⟩ ∧
        mapScoreToConfidence (calculateScore opp) = .high) ∧
      (40 ≤ calculateScore opp → calculateScore opp < 70 →
        (validateOpportunity cfg opp).recommendation = .CAUTION ∧
        (validateOpportunity cfg opp).isValid = false ∧
        mapScoreToConfidence (calculateScore opp) = .medium) ∧
      (calculateScore opp < 40 →
        (validateOpportunity cfg opp).recommendation = .REJECT ∧
        (validateOpportunity cfg opp).isValid = false ∧
        mapScoreToConfidence (calculateScore opp) = .low)) ∧
    (∀ (cfg : Config) (now : ℕ) (pd : List PriceData),
      cfg.EMERGENCY_FILTER_ENABLED = true →
      ∀ o ∈ analyzeArbitrageOpportunities cfg now pd,
        ∃ p ∈ detectOpportunities cfg now pd,
          (validateOpportunity cfg p).isValid = true ∧
          (validateOpportunity cfg p).recommendation = .ACCEPT ∧
          70 ≤ (validateOpportunity cfg p).score ∧
          o = acceptedCopy cfg p ∧ o.confidence = .high) := by
  constructor
  · intro cfg opp hpass
    have heq := validateOpportunity_pass hpass
    refine ⟨?_, ?_, ?_⟩
    · intro hge
      constructor
      · rw [heq, scoreOutcome, if_pos hge]
      · rw [mapScoreToConfidence, if_pos hge]
    · intro h40 h70
      have hn70 : ¬(calculateScore opp ≥ 70) := not_le.mpr h70
      refine ⟨?_, ?_, ?_⟩
      · rw [heq, scoreOutcome, if_neg hn70, if_pos h40]
      · rw [heq, scoreOutcome, if_neg hn70, if_pos h40]
      · rw [mapScoreToConfidence, if_neg hn70, if_pos h40]
    · intro h40
      have hn70 : ¬(calculateScore opp ≥ 70) :=
        not_le.mpr (lt_trans h40 (by with_unfolding_all decide))
      have hn40 : ¬(calculateScore opp ≥ 40) := not_le.mpr h40
      refine ⟨?_, ?_, ?_⟩
      · rw [heq, scoreOutcome, if_neg hn70, if_neg hn40]
      · rw [heq, scoreOutcome, if_neg hn70, if_neg hn40]
      · rw [mapScoreToConfidence, if_neg hn70, if_neg hn40]
  · intro cfg now pd hf o ho
    simp only [analyzeArbitrageOpportunities] at ho
    rw [if_pos hf] at ho
    rcases mem_filterAccepted.mp ho with ⟨p, hp, hv, rfl⟩
    rcases validateOpportunity_isValid_elim hv with ⟨hpass, heq, hscore, hrec⟩
    refine ⟨p, hp, hv, ?_, ?_, rfl, ?_⟩
    · rw [hrec]
    · rw [hrec]; exact hscore
    · show mapScoreToConfidence (validateOpportunity cfg p).score = Confidence.high
      rw [hrec, mapScoreToConfidence]
      exact if_pos hscore

/-- C5 witness: the ETH-on-reputable-venues candidate scores 79 and is
accepted; its published copy carries `high` confidence. -/
theorem claim_C5_witness :
    (validateOpportunity defaultConfig oppStableOk =
        ⟨true, "Passed all validation checks", calculateScore oppStableOk, .ACCEPT⟩ ∧
      mapScoreToConfidence (calculateScore oppStableOk) = .high) ∧
    (acceptedCopy cfgC9 oppC5).confidence = .high := by
  constructor
  · exact (claim_C5_score_mapping.1 defaultConfig oppStableOk
        (passes_oppStableOk defaultConfig)).1
      (by rw [score_oppStableOk]; with_unfolding_all decide)
  · obtain ⟨p, hp, hv, hrec, hscore, heq, hconf⟩ :=
      claim_C5_score_mapping.2 cfgC9 0 pdC5 rfl (acceptedCopy cfgC9 oppC5)
        (by rw [analyze_pdC5]; exact List.mem_singleton_self _)
    exact hconf

/-- C6: a candidate whose token is one of the five stablecoins
(case-insensitively) that reaches the stablecoin check is rejected when
either price deviates from the 1.00 peg by more than 5% relative
deviation, and proceeds to scoring otherwise; `isStablecoin` holds
exactly for the five listed symbols. -/
theorem claim_C6_stablecoin_deviation :
    (∀ t : String, isStablecoin t = true ↔
      strUpper t ∈ (["DAI", "USDC", "USDT", "BUSD", "FRAX"] : List String)) ∧
    (∀ (cfg : Config) (opp : ArbitrageOpportunity),
      isStablecoin opp.token = true → reachesStablecoinCheck cfg opp →
      ((|opp.buyPrice - 1.0| / 1.0 > 0.05 ∨ |opp.sellPrice - 1.0| / 1.0 > 0.05) →
        validateOpportunity cfg opp =
          ⟨false, "Stablecoin anomaly: " ++ (validateStablecoin opp).reason,
            0, .REJECT⟩) ∧
      (|opp.buyPrice - 1.0| / 1.0 ≤ 0.05 → |opp.sellPrice - 1.0| / 1.0 ≤ 0.05 →
        validateOpportunity cfg opp = scoreOutcome opp)) := by
  constructor
  · intro t
    simp [isStablecoin, List.elem_iff]
  · intro cfg opp hs hr
    constructor
    · intro hdev
      exact validateOpportunity_fail_stablecoin hr hs (validateStablecoin_fail hs hdev)
    · intro h1 h2
      exact validateOpportunity_pass
        ⟨hr.1, hr.2.1, hr.2.2.1, hr.2.2.2.1, hr.2.2.2.2,
          fun _ => validateStablecoin_pass h1 h2⟩

/-- C6 witness: USDC at 1.04/1.08 (8% sell-side deviation) is rejected
by the stablecoin check; USDC at 0.99/1.00 proceeds to scoring. -/
theorem claim_C6_witness :
    validateOpportunity defaultConfig oppStableDev =
      ⟨false, "Stablecoin anomaly: " ++ (validateStablecoin oppStableDev).reason,
        0, .REJECT⟩ ∧
    validateOpportunity defaultConfig oppStableOk = scoreOutcome oppStableOk :=
  ⟨(claim_C6_stablecoin_deviation.2 defaultConfig oppStableDev (by decide)
      (reaches_oppStableDev defaultConfig)).1
      (Or.inr (by with_unfolding_all decide)),
    (claim_C6_stablecoin_deviation.2 defaultConfig oppStableOk (by decide)
      (passes_to_reaches (passes_oppStableOk defaultConfig))).2
      (by with_unfolding_all decide) (by with_unfolding_all decide)⟩

/-- C7: the published opportunity list is sorted by `netProfit`
descending (pairwise, so in particular each element's `netProfit` is at
least the next one's), with the anomaly filter enabled or disabled.
Determinism for identical input holds because
`analyzeArbitrageOpportunities` is a pure function of its arguments. -/
theorem claim_C7_sorted_descending (cfg : Config) (now : ℕ) (pd : List PriceData) :
    (analyzeArbitrageOpportunities cfg now pd).Pairwise
      (fun a b => b.netProfit ≤ a.netProfit) := by
  unfold analyzeArbitrageOpportunities
  by_cases hf : cfg.EMERGENCY_FILTER_ENABLED
  · rw [if_pos hf, filterOpportunities_accepted]
    exact sortByNetProfitDesc_sorted _
  · rw [if_neg hf]
    exact sortByNetProfitDesc_sorted _

/-- C8: the empty price-data list yields the empty opportunity list
(and, the model being a total function, no error), with the filter
enabled or disabled. -/
theorem claim_C8_empty_input (cfg : Config) (now : ℕ) :
    analyzeArbitrageOpportunities cfg now [] = [] := by
  unfold analyzeArbitrageOpportunities detectOpportunities groupByToken
  by_cases hf : cfg.EMERGENCY_FILTER_ENABLED
  · rw [if_pos hf]; rfl
  · rw [if_neg hf]; rfl

/-- C9 counterexample: on the spec's scenario input, under the default
configuration, detection produces no candidate at all (net profit
`1000 * 2% - 22.5 = -2.5` is not positive), and the published list is
empty whether the filter is enabled or not — contradicting the claim
that a candidate is produced and accepted with high confidence. -/
theorem claim_C9_counterexample :
    detectOpportunities defaultConfig 0 pdC9 = [] ∧
    analyzeArbitrageOpportunities defaultConfig 0 pdC9 = [] ∧
    analyzeArbitrageOpportunities
      { defaultConfig with EMERGENCY_FILTER_ENABLED := true } 0 pdC9 = [] :=
  ⟨detect_pdC9_at1000 defaultConfig rfl, analyze_pdC9_default, analyze_pdC9_defaultOn⟩

/-- C9 (amended): under the default configuration the scenario yields
no candidate; raising the trade amount to `10000` makes detection
produce the candidate `buy = VenueA, sell = VenueB,
profitPercentage = 2`, but the filter then scores it 65 — CAUTION, not
ACCEPT — so the published list is still empty (VenueA/VenueB only carry
the default source-reliability of 5 each). -/
theorem claim_C9_scenario :
    detectOpportunities defaultConfig 0 pdC9 = [] ∧
    detectOpportunities cfgC9 0 pdC9 = [oppC9] ∧
    oppC9.buyExchange = "VenueA" ∧ oppC9.sellExchange = "VenueB" ∧
    oppC9.profitPercentage = 2 ∧
    validateOpportunity cfgC9 oppC9 =
      ⟨false, "Moderate confidence, requires manual review", 65, .CAUTION⟩ ∧
    analyzeArbitrageOpportunities cfgC9 0 pdC9 = [] :=
  ⟨detect_pdC9_at1000 defaultConfig rfl, detect_pdC9_at10000 cfgC9 rfl,
    rfl, rfl, rfl, validate_oppC9 cfgC9, analyze_pdC9_cfgC9⟩

/-- C10: `filterOpportunities` returns the rejected candidates
unmodified (exactly the invalid ones, in order), returns the accepted
candidates as the valid ones with only `confidence` replaced (then
ranked by `netProfit`), and partitions the input: accepted count plus
rejected count equals the input count. -/
theorem claim_C10_filter_frame (cfg : Config)
    (opportunities : List ArbitrageOpportunity) :
    (filterOpportunities cfg opportunities).rejected =
        opportunities.filter (fun o => !(validateOpportunity cfg o).isValid) ∧
    (filterOpportunities cfg opportunities).accepted =
        sortByNetProfitDesc
          ((opportunities.filter (fun o => (validateOpportunity cfg o).isValid)).map
            (acceptedCopy cfg)) ∧
    (filterOpportunities cfg opportunities).accepted.length +
        (filterOpportunities cfg opportunities).rejected.length =
      opportunities.length := by
  refine ⟨filterOpportunities_rejected cfg opportunities,
    filterOpportunities_accepted cfg opportunities, ?_⟩
  have hlen := filterLoop_length cfg opportunities
  have hacc : (filterOpportunities cfg opportunities).accepted.length =
      (filterLoop cfg opportunities).1.length := by
    simp only [filterOpportunities]
    exact (sortByNetProfitDesc_perm _).length_eq
  have hrej : (filterOpportunities cfg opportunities).rejected =
      (filterLoop cfg opportunities).2 := rfl
  rw [hacc, hrej]
  exact hlen

end ArbBot
